import Mathlib

/-!
Shallow embedding of the review-ranking core of `src/2v/step2_search.py`
(the class `SemanticSearch` and the module-level helpers
`sentiment_to_weight` and `normalize_text`) together with the search
defaults of `src/2v/config.py`.

Python floats are modelled as rationals wherever the code only multiplies,
divides, sums and compares them, and as reals where `np.log1p` and
`np.sqrt` enter.  The external collaborators (sentence-embedding model,
FAISS index, sentiment classifier) are modelled as function fields of
`SearchEnv`; `retrieve` is the composite of embedding the normalized query
and `index.search`.  String primitives are re-implemented structurally on
the character list so that concrete runs evaluate inside the kernel.
-/

namespace Step2

/-- Errors raised by the query API: `ValueError` on an empty normalized
query (spec taxonomy `InvalidQuery`, step2_search.py line 119) and
`ValueError("Unknown aggregation method: ...")` (spec taxonomy
`InvalidAggregation`, line 303). -/
inductive SearchError where
  | invalidQuery : SearchError
  | invalidAggregation : String → SearchError
  deriving DecidableEq, Repr

/-- Characters of `s` lowercased, modelling Python `str.lower()` on the
ASCII labels that the sentiment classifier returns. -/
def strLower (s : String) : String := String.mk (s.data.map Char.toLower)

/-- First `n` characters of `s`, modelling the Python slice `s[:n]`. -/
def strTake (s : String) (n : Nat) : String := String.mk (s.data.take n)

/-- Python `str.strip()`: drop leading and trailing whitespace. -/
def strTrim (s : String) : String :=
  String.mk (((s.data.dropWhile Char.isWhitespace).reverse.dropWhile Char.isWhitespace).reverse)

/-- Helper for Python `str.split()` without argument: cut the character
list at every whitespace character. -/
def splitWsAux : List Char → List Char → List (List Char)
  | [], acc => [acc.reverse]
  | c :: cs, acc =>
    if c.isWhitespace then acc.reverse :: splitWsAux cs [] else splitWsAux cs (c :: acc)

/-- Python `str.split()` without argument: maximal whitespace-free words. -/
def pyWords (s : String) : List String :=
  ((splitWsAux s.data []).filter (fun w => !w.isEmpty)).map String.mk

/-- Embedding of `normalize_text` (step2_search.py lines 412-427).  The
NFKC normalization and the UTF-8 encode/decode round trip are modelled as
the identity on Lean strings (Lean strings are already sequences of
unicode scalar values and carry no mojibake); the remaining observable
effect is Python's `" ".join(text.split())`, which collapses whitespace
runs, trims, and maps whitespace-only input to the empty string. -/
def normalizeText (text : String) : String := " ".intercalate (pyWords text)

/-- Embedding of `sentiment_to_weight` (lines 399-409): lowercase the
label, then positive ↦ 1.2, neutral ↦ 1.0, negative ↦ 0.8 and any other
label ↦ 1.0 (the `weights.get(label, 1.0)` default). -/
def sentimentToWeight (label : String) : ℚ :=
  let l := strLower label
  if l = "positive" then 1.2
  else if l = "neutral" then 1
  else if l = "negative" then 0.8
  else 1

/-- Embedding of the nested `align_sentiment` closure of `search_reviews`
(lines 173-193): the 3×3 query-sentiment × review-sentiment policy table,
with every non-negative non-positive query sentiment falling into the
neutral row. -/
def alignSentiment (querySent reviewSent : String) : ℚ :=
  if querySent = "negative" then
    if reviewSent = "positive" then 0.05
    else if reviewSent = "negative" then 2.5
    else 0.5
  else if querySent = "positive" then
    if reviewSent = "negative" then 0.05
    else if reviewSent = "positive" then 2.0
    else 0.7
  else 1

/-- Score threshold of line 205: 0.15 when the query sentiment is
negative, 0.20 otherwise. -/
def minScoreFor (querySent : String) : ℚ :=
  if querySent = "negative" then 0.15 else 0.20

/-- Row of the loaded `reviews_df`: the fields the core reads are
`place_firm_id` (possibly missing) and the text column. -/
structure Review where
  placeId : Option Int
  text : String
  deriving DecidableEq, Repr

/-- Row of `places_df` after `firm_id` is cast to int (lines 310-312);
`name`, `address`, `category`, `rating` may be missing. -/
structure Place where
  firmId : Int
  name : Option String
  address : Option String
  category : Option String
  rating : Option ℚ
  deriving DecidableEq, Repr

/-- Row of the scored-review frame built by `search_reviews`
(lines 150-202): the original review joined with the similarity returned
by the index and the added sentiment columns. -/
structure ScoredReview where
  placeId : Int
  text : String
  similarity : ℚ
  sentimentLabel : String
  sentimentScore : ℚ
  sentimentWeight : ℚ
  sentimentAlignment : ℚ
  finalReviewScore : ℚ
  deriving DecidableEq, Repr

/-- Row of `place_scores` after the `groupby` aggregation and the column
renaming of lines 252-265. -/
structure PlaceScoreRow where
  placeId : Int
  avgScore : ℚ
  maxScore : ℚ
  reviewCount : Nat
  totalScore : ℚ
  posCount : Nat
  negCount : Nat
  neuCount : Nat
  deriving DecidableEq, Repr

/-- Row of the final frame returned by `search_places` (column selection
of lines 332-342); the metadata columns are `none` when the left join of
line 314 found no matching place.  `finalScore` is real valued because
the `weighted` strategy multiplies by `np.log1p` and `np.sqrt`. -/
structure PlaceResult where
  name : Option String
  address : Option String
  category : Option String
  rating : Option ℚ
  finalScore : ℝ
  avgScore : ℚ
  reviewCount : Nat
  posCount : Nat
  negCount : Nat
  neuCount : Nat
  placeId : Int

/-- The session cache: the two instance attributes
`_last_relevant_reviews` and `_last_query_sentiment` (lines 102-103). -/
structure SessionCache where
  lastReviews : Option (List ScoredReview)
  lastSentiment : Option String
  deriving DecidableEq, Repr

/-- External state of a `SemanticSearch` instance: the review and place
tables, the FAISS index size `ntotal`, the retrieval capability
(`retrieve q k` returns up to `k` pairs of review row index and cosine
similarity for the normalized query `q`), and the sentiment pipeline
(`classify t` returns the raw label and the confidence for text `t`). -/
structure SearchEnv where
  reviews : List Review
  places : List Place
  ntotal : Nat
  retrieve : String → Nat → List (Nat × ℚ)
  classify : String → String × ℚ

/-- Insert `a` before the first element `b` with `keep a b = true`. -/
def insOne {α : Type} (keep : α → α → Bool) (a : α) : List α → List α
  | [] => [a]
  | b :: bs => if keep a b then a :: b :: bs else b :: insOne keep a bs

/-- Stable insertion sort: with `keep a b = (key b ≤ key a)` this sorts
descending by `key` with ties kept in the original order; it models
pandas `sort_values`/`nlargest(..., keep='first')`. -/
def insSort {α : Type} (keep : α → α → Bool) : List α → List α
  | [] => []
  | a :: as => insOne keep a (insSort keep as)

/-- Comparator sorting scored reviews descending by `final_review_score`. -/
def revDesc (a b : ScoredReview) : Bool :=
  decide (b.finalReviewScore ≤ a.finalReviewScore)

/-- pandas `nlargest(n, 'final_review_score')`: stable descending sort,
then the first `n` rows (lines 214 and 364). -/
def nlargestReviews (n : Nat) (l : List ScoredReview) : List ScoredReview :=
  (insSort revDesc l).take n

/-- Query sentiment (`_get_query_sentiment`, lines 109-112, called on the
normalized query at line 122): classify the first 512 characters and
lowercase the label. -/
def querySentimentOf (env : SearchEnv) (query : String) : String :=
  strLower (env.classify (strTake (normalizeText query) 512)).1

/-- Scoring of one candidate row (lines 160-202): sentiment of the text
truncated to 512 characters, base weight, alignment and the final
multiplicative score.  Rows without `place_firm_id` were dropped at
line 154, so the `none` branch is unreachable inside the pipeline. -/
def scoreCandidate (env : SearchEnv) (querySent : String) (rc : Review × ℚ) :
    Option ScoredReview :=
  match rc.1.placeId with
  | none => none
  | some pid =>
    let cls := env.classify (strTake rc.1.text 512)
    let lab := strLower cls.1
    some { placeId := pid, text := rc.1.text, similarity := rc.2,
           sentimentLabel := lab, sentimentScore := cls.2,
           sentimentWeight := sentimentToWeight lab,
           sentimentAlignment := alignSentiment querySent lab,
           finalReviewScore := rc.2 * sentimentToWeight lab * alignSentiment querySent lab }

/-- Threshold filter of lines 204-206: keep exactly the rows scoring
strictly above `minScoreFor querySent`
(`results[results['final_review_score'] > min_score]`). -/
def thresholdFilter (querySent : String) (l : List ScoredReview) : List ScoredReview :=
  l.filter (fun r => decide (minScoreFor querySent < r.finalReviewScore))

/-- Body of `search_reviews` after the empty-query guard (lines 120-214):
over-fetch `min(top_k * 5, ntotal)` candidates, drop indices outside the
review table and rows without a place id, score everything, apply the
threshold filter and return the `top_k` largest.  The code's early
returns of an empty frame coincide with running the remaining steps on an
empty list. -/
def searchReviewsCore (env : SearchEnv) (querySent q : String) (topK : Nat) :
    List ScoredReview :=
  let searchK := min (topK * 5) env.ntotal
  let cands := (env.retrieve q searchK).filter (fun c => decide (c.1 < env.reviews.length))
  let rows := cands.filterMap (fun c => (env.reviews[c.1]?).map (fun r => (r, c.2)))
  let rows := rows.filter (fun rc => rc.1.placeId.isSome)
  let scored := rows.filterMap (scoreCandidate env querySent)
  nlargestReviews topK (thresholdFilter querySent scored)

/-- Embedding of `search_reviews` (lines 114-214): normalize the query,
fail fast with `InvalidQuery` when it is empty — the raise at line 119
precedes the query-sentiment write of line 123, so the cache comes back
untouched — otherwise record the query sentiment in the session cache and
run the pure core.  The session cache is returned alongside the result in
explicit state-passing style so that the state left behind by raising
calls remains observable. -/
def searchReviews (env : SearchEnv) (cache : SessionCache) (query : String) (topK : Nat) :
    SessionCache × Except SearchError (List ScoredReview) :=
  let q := normalizeText query
  if q.length = 0 then (cache, .error .invalidQuery)
  else
    let querySent := querySentimentOf env query
    ({ cache with lastSentiment := some querySent },
     .ok (searchReviewsCore env querySent q topK))

/-- List returned by a `search_reviews` call, or the empty list when the
call raises. -/
def searchReviewsList (env : SearchEnv) (cache : SessionCache) (query : String) (topK : Nat) :
    List ScoredReview :=
  match searchReviews env cache query topK with
  | (_, .error _) => []
  | (_, .ok l) => l

/-- One pass of `groupby('place_firm_id').head(cap)` over a frame that is
already sorted: keep a row when fewer than `cap` rows of the same place
were kept before it. -/
def capGo (cap : Nat) (seen : List Int) : List ScoredReview → List ScoredReview
  | [] => []
  | r :: rs =>
    if seen.count r.placeId < cap then r :: capGo cap (r.placeId :: seen) rs
    else capGo cap seen rs

/-- The per-place cap of lines 240-245: sort descending by
`final_review_score`, then keep at most 15 rows per `place_firm_id`. -/
def capReviews (l : List ScoredReview) : List ScoredReview :=
  capGo 15 [] (insSort revDesc l)

/-- pandas `max` over the scores of a group; only applied to nonempty
groups inside `groupPlaces`. -/
def maxAux : List ℚ → ℚ
  | [] => 0
  | a :: as => as.foldl max a

/-- Group reduction of one place (lines 252-265): pandas `mean`, `max`,
`count`, `sum` over `final_review_score` plus the three sentiment counts. -/
def mkRow (pid : Int) (g : List ScoredReview) : PlaceScoreRow :=
  { placeId := pid
    avgScore := (g.map (fun r => r.finalReviewScore)).sum / (g.length : ℚ)
    maxScore := maxAux (g.map (fun r => r.finalReviewScore))
    reviewCount := g.length
    totalScore := (g.map (fun r => r.finalReviewScore)).sum
    posCount := g.countP (fun r => decide (r.sentimentLabel = "positive"))
    negCount := g.countP (fun r => decide (r.sentimentLabel = "negative"))
    neuCount := g.countP (fun r => decide (r.sentimentLabel = "neutral")) }

/-- `relevant_reviews.groupby('place_firm_id').agg(...)` of lines 252-265:
one `PlaceScoreRow` per occurring place id, groups in ascending key order
(pandas `groupby` sorts the keys). -/
def groupPlaces (l : List ScoredReview) : List PlaceScoreRow :=
  (insSort (fun a b : Int => decide (a ≤ b)) ((l.map (fun r => r.placeId)).dedup)).filterMap
    (fun pid =>
      if (l.filter (fun r => decide (r.placeId = pid))).isEmpty then none
      else some (mkRow pid (l.filter (fun r => decide (r.placeId = pid)))))

/-- Sentiment ratio of the `weighted` strategy (lines 284-295), with
add-one smoothing on both sides. -/
def sentimentRatio (querySent : String) (p : PlaceScoreRow) : ℚ :=
  if querySent = "negative" then
    ((p.negCount : ℚ) + 1) / ((p.posCount : ℚ) + (p.neuCount : ℚ) + 1)
  else
    ((p.posCount : ℚ) + 1) / ((p.negCount : ℚ) + 1)

/-- The `weighted` final score of lines 297-301:
`avg_score * np.log1p(review_count) * np.sqrt(sentiment_ratio)`. -/
noncomputable def weightedScore (querySent : String) (p : PlaceScoreRow) : ℝ :=
  (p.avgScore : ℝ) * Real.log (1 + (p.reviewCount : ℝ)) *
    Real.sqrt ((sentimentRatio querySent p : ℚ) : ℝ)

/-- Strategy dispatch of lines 276-303: `mean`, `max`, `weighted`, and a
`ValueError` (`InvalidAggregation`) on every other name. -/
noncomputable def strategyScores (aggregation querySent : String)
    (rows : List PlaceScoreRow) : Except SearchError (List (PlaceScoreRow × ℝ)) :=
  if aggregation = "mean" then .ok (rows.map (fun p => (p, ((p.avgScore : ℚ) : ℝ))))
  else if aggregation = "max" then .ok (rows.map (fun p => (p, ((p.maxScore : ℚ) : ℝ))))
  else if aggregation = "weighted" then .ok (rows.map (fun p => (p, weightedScore querySent p)))
  else .error (.invalidAggregation aggregation)

/-- Comparator for `nlargest(top_k * 2, 'final_score')` (line 306) over
the real-valued final scores; decidability of the real order is
classical. -/
noncomputable def rowDesc (a b : PlaceScoreRow × ℝ) : Bool := decide (b.2 ≤ a.2)

/-- Projection of one scored place row joined with optional place
metadata to an output row (the merge of lines 308-319 and the column
selection of lines 332-342). -/
def resultOfRow (pl : Option Place) (p : PlaceScoreRow) (s : ℝ) : PlaceResult :=
  { name := pl.bind (fun x => x.name), address := pl.bind (fun x => x.address),
    category := pl.bind (fun x => x.category), rating := pl.bind (fun x => x.rating),
    finalScore := s, avgScore := p.avgScore, reviewCount := p.reviewCount,
    posCount := p.posCount, negCount := p.negCount, neuCount := p.neuCount,
    placeId := p.placeId }

/-- The left merge of line 314 for one left row: one output row per place
whose `firm_id` matches, or a single metadata-less row when none does. -/
def mergePlace (places : List Place) (pr : PlaceScoreRow × ℝ) : List PlaceResult :=
  if (places.filter (fun pl => decide (pl.firmId = pr.1.placeId))).isEmpty then
    [resultOfRow none pr.1 pr.2]
  else
    (places.filter (fun pl => decide (pl.firmId = pr.1.placeId))).map
      (fun pl => resultOfRow (some pl) pr.1 pr.2)

/-- `drop_duplicates(subset=['name'], keep='first')` of line 323; pandas
treats missing names as equal to each other. -/
def dedupNameGo (seen : List (Option String)) : List PlaceResult → List PlaceResult
  | [] => []
  | r :: rs =>
    if r.name ∈ seen then dedupNameGo seen rs
    else r :: dedupNameGo (r.name :: seen) rs

/-- Python `x or default` on an optional integer argument (lines 225-226
with `DEFAULT_TOP_K`, `DEFAULT_MIN_REVIEWS` of config.py lines 47-48):
`None` and `0` are falsy and are replaced by the default. -/
def natOrDefault (x : Option Nat) (d : Nat) : Nat :=
  match x with
  | none => d
  | some n => if n = 0 then d else n

/-- Python `x or default` on an optional string (line 227 with
`DEFAULT_AGGREGATION`, and line 249): `None` and `""` are falsy. -/
def strOrDefault (x : Option String) (d : String) : String :=
  match x with
  | none => d
  | some s => if s = "" then d else s

/-- Aggregation rows feeding the strategy step: group the capped reviews
by place and apply the minimum-evidence filter
(`place_scores[place_scores['review_count'] >= min_reviews]`,
lines 252-268). -/
def placeRows (minReviews : Nat) (capped : List ScoredReview) : List PlaceScoreRow :=
  (groupPlaces capped).filter (fun p => decide (minReviews ≤ p.reviewCount))

/-- Tail of `search_places` after the final scores exist (lines 305-342):
take the top `2 * top_k` rows by final score, left-join place metadata,
deduplicate by name, drop missing and `'nan'` names, truncate to `top_k`. -/
noncomputable def finalizePlaces (places : List Place) (topK : Nat)
    (scoredRows : List (PlaceScoreRow × ℝ)) : List PlaceResult :=
  ((dedupNameGo []
      (((insSort rowDesc scoredRows).take (topK * 2)).flatMap (mergePlace places))).filter
    (fun r => r.name.isSome && !(r.name == some "nan"))).take topK

/-- Embedding of `search_places` (lines 216-342): apply the falsy-or
defaults, retrieve up to 300 relevant reviews, return an empty frame if
none were found, cap per place and store the capped set in the session
cache, group by place and filter by minimum evidence (empty frame if
nothing is left), compute the final scores under the selected strategy
(raising on an unknown name), and finalize.  The session cache is the
first component of the result: the cache write of line 247 precedes both
the minimum-evidence early return (lines 270-273) and the
`InvalidAggregation` raise (line 303), so on those paths the escaping
state still carries the capped review set and the fresh query sentiment,
exactly as in the Python code. -/
noncomputable def searchPlaces (env : SearchEnv) (cache : SessionCache) (query : String)
    (topKArg minReviewsArg : Option Nat) (aggregationArg : Option String) :
    SessionCache × Except SearchError (List PlaceResult) :=
  match searchReviews env cache query 300 with
  | (cache1, .error e) => (cache1, .error e)
  | (cache1, .ok relevant) =>
    if relevant.isEmpty then (cache1, .ok [])
    else
      ({ cache1 with lastReviews := some (capReviews relevant) },
       if (placeRows (natOrDefault minReviewsArg 3) (capReviews relevant)).isEmpty then
         .ok []
       else
         match strategyScores (strOrDefault aggregationArg "weighted")
             (strOrDefault cache1.lastSentiment "neutral")
             (placeRows (natOrDefault minReviewsArg 3) (capReviews relevant)) with
         | .error e => .error e
         | .ok scoredRows =>
           .ok (finalizePlaces env.places (natOrDefault topKArg 10) scoredRows))

/-- Sentiment marker of line 373, defaulting to the empty string on any
other label. -/
def sentIndicator (label : String) : String :=
  if label = "positive" then "[+]"
  else if label = "negative" then "[-]"
  else if label = "neutral" then "[~]"
  else ""

/-- Embedding of `get_place_highlights` (lines 344-376): empty when the
cache is unset or empty or holds no row of the place; otherwise the
`top_k` rows of the place by `final_review_score`, each kept only when
its raw text has more than 20 characters after stripping, then formatted
as `"<indicator> <normalized text>"`. -/
def getPlaceHighlights (cache : SessionCache) (placeId : Int) (topK : Nat) : List String :=
  match cache.lastReviews with
  | none => []
  | some rs =>
    if rs.isEmpty then []
    else if (rs.filter (fun r => decide (r.placeId = placeId))).isEmpty then []
    else
      (nlargestReviews topK (rs.filter (fun r => decide (r.placeId = placeId)))).filterMap
        (fun r =>
          if 20 < (strTrim r.text).length then
            some (sentIndicator r.sentimentLabel ++ " " ++ normalizeText r.text)
          else none)

/-- Embedding of `get_place_sentiment_stats` (lines 378-396). -/
def getPlaceSentimentStats (cache : SessionCache) (placeId : Int) : Nat × Nat × Nat :=
  match cache.lastReviews with
  | none => (0, 0, 0)
  | some rs =>
    if (rs.filter (fun r => decide (r.placeId = placeId))).isEmpty then (0, 0, 0)
    else ((rs.filter (fun r => decide (r.placeId = placeId))).countP
            (fun r => decide (r.sentimentLabel = "positive")),
          (rs.filter (fun r => decide (r.placeId = placeId))).countP
            (fun r => decide (r.sentimentLabel = "negative")),
          (rs.filter (fun r => decide (r.placeId = placeId))).countP
            (fun r => decide (r.sentimentLabel = "neutral")))

/-! Properties of the generic sort and of the per-place cap. -/

theorem insOne_perm {α : Type} (keep : α → α → Bool) (a : α) (l : List α) :
    List.Perm (insOne keep a l) (a :: l) := by
  induction l with
  | nil => exact List.Perm.refl _
  | cons b bs ih =>
    simp only [insOne]
    split
    · exact List.Perm.refl _
    · exact (ih.cons b).trans (List.Perm.swap a b bs)

theorem insSort_perm {α : Type} (keep : α → α → Bool) (l : List α) :
    List.Perm (insSort keep l) l := by
  induction l with
  | nil => exact List.Perm.refl _
  | cons a as ih => exact (insOne_perm keep a (insSort keep as)).trans (ih.cons a)

theorem mem_insSort {α : Type} {keep : α → α → Bool} {l : List α} {x : α} :
    x ∈ insSort keep l ↔ x ∈ l :=
  (insSort_perm keep l).mem_iff

theorem mem_insOne {α : Type} {keep : α → α → Bool} {a x : α} {l : List α} :
    x ∈ insOne keep a l ↔ x = a ∨ x ∈ l := by
  rw [(insOne_perm keep a l).mem_iff, List.mem_cons]

theorem insOne_pairwise {α : Type} {keep : α → α → Bool}
    (total : ∀ a b, keep a b = true ∨ keep b a = true)
    (ktrans : ∀ a b c, keep a b = true → keep b c = true → keep a c = true)
    {a : α} {l : List α} (h : l.Pairwise (fun x y => keep x y = true)) :
    (insOne keep a l).Pairwise (fun x y => keep x y = true) := by
  induction l with
  | nil => simp [insOne]
  | cons b bs ih =>
    rcases List.pairwise_cons.1 h with ⟨hb, hbs⟩
    simp only [insOne]
    split
    · rename_i hab
      refine List.pairwise_cons.2 ⟨?_, h⟩
      intro x hx
      rcases List.mem_cons.1 hx with rfl | hx
      · exact hab
      · exact ktrans a b x hab (hb x hx)
    · rename_i hab
      have hba : keep b a = true := by
        rcases total a b with h1 | h1
        · exact absurd h1 hab
        · exact h1
      refine List.pairwise_cons.2 ⟨?_, ih hbs⟩
      intro x hx
      rcases mem_insOne.1 hx with rfl | hx
      · exact hba
      · exact hb x hx

theorem insSort_pairwise {α : Type} {keep : α → α → Bool}
    (total : ∀ a b, keep a b = true ∨ keep b a = true)
    (ktrans : ∀ a b c, keep a b = true → keep b c = true → keep a c = true)
    (l : List α) :
    (insSort keep l).Pairwise (fun x y => keep x y = true) := by
  induction l with
  | nil => simp [insSort]
  | cons a as ih => exact insOne_pairwise total ktrans ih

theorem revDesc_total : ∀ a b, revDesc a b = true ∨ revDesc b a = true := by
  intro a b
  simp only [revDesc, decide_eq_true_eq]
  exact le_total _ _

theorem revDesc_trans :
    ∀ a b c, revDesc a b = true → revDesc b c = true → revDesc a c = true := by
  intro a b c
  simp only [revDesc, decide_eq_true_eq]
  intro h1 h2
  exact h2.trans h1

/-- The review sort is descending in `final_review_score`. -/
theorem insSort_revDesc_sorted (l : List ScoredReview) :
    (insSort revDesc l).Pairwise
      (fun a b => b.finalReviewScore ≤ a.finalReviewScore) := by
  have h := insSort_pairwise revDesc_total revDesc_trans l
  refine h.imp ?_
  intro a b hab
  simpa [revDesc] using hab

theorem capGo_sublist (cap : Nat) (seen : List Int) (l : List ScoredReview) :
    (capGo cap seen l).Sublist l := by
  induction l generalizing seen with
  | nil => simp [capGo]
  | cons r rs ih =>
    simp only [capGo]
    split
    · exact (ih (r.placeId :: seen)).cons₂ r
    · exact (ih seen).cons r

/-- Per place, `capGo` keeps exactly the first `cap - seen.count pid`
rows of that place, in order. -/
theorem capGo_filter (cap : Nat) (l : List ScoredReview) (seen : List Int) (pid : Int) :
    (capGo cap seen l).filter (fun r => decide (r.placeId = pid)) =
      (l.filter (fun r => decide (r.placeId = pid))).take (cap - seen.count pid) := by
  induction l generalizing seen with
  | nil => simp [capGo]
  | cons r rs ih =>
    by_cases hr : r.placeId = pid
    · subst hr
      simp only [capGo]
      split
      · rename_i hlt
        have hcount : (r.placeId :: seen).count r.placeId = seen.count r.placeId + 1 := by
          simp [List.count_cons]
        have hsub : cap - seen.count r.placeId = (cap - (seen.count r.placeId + 1)) + 1 := by
          omega
        simp only [List.filter_cons, decide_eq_true_eq, if_pos rfl, ih, hcount, hsub]
        simp [List.take]
      · rename_i hge
        have hzero : cap - seen.count r.placeId = 0 := by omega
        simp only [List.filter_cons, decide_eq_true_eq, if_pos rfl, ih, hzero]
        simp
    · simp only [capGo]
      split
      · rename_i hlt
        have hcount : (r.placeId :: seen).count pid = seen.count pid := by
          simp [List.count_cons, hr]
        simp only [List.filter_cons, decide_eq_true_eq, if_neg hr, ih, hcount]
      · simp only [List.filter_cons, decide_eq_true_eq, if_neg hr, ih]

theorem capReviews_filter (l : List ScoredReview) (pid : Int) :
    (capReviews l).filter (fun r => decide (r.placeId = pid)) =
      ((insSort revDesc l).filter (fun r => decide (r.placeId = pid))).take 15 := by
  simpa using capGo_filter 15 (insSort revDesc l) [] pid

theorem capReviews_filter_length (l : List ScoredReview) (pid : Int) :
    ((capReviews l).filter (fun r => decide (r.placeId = pid))).length ≤ 15 := by
  rw [capReviews_filter]
  exact (List.length_take_le _ _).trans (le_refl 15)

theorem mem_capReviews {l : List ScoredReview} {r : ScoredReview} :
    r ∈ capReviews l → r ∈ l := by
  intro h
  exact mem_insSort.1 ((capGo_sublist 15 [] (insSort revDesc l)).subset h)

/-! Characterizations of the pipeline stages. -/

theorem searchReviews_of_empty {env : SearchEnv} {cache : SessionCache} {query : String}
    {topK : Nat} (h : (normalizeText query).length = 0) :
    searchReviews env cache query topK = (cache, .error .invalidQuery) := by
  simp [searchReviews, h]

theorem searchReviews_of_nonempty {env : SearchEnv} {cache : SessionCache} {query : String}
    {topK : Nat} (h : ¬ (normalizeText query).length = 0) :
    searchReviews env cache query topK =
      ({ cache with lastSentiment := some (querySentimentOf env query) },
       .ok (searchReviewsCore env (querySentimentOf env query) (normalizeText query) topK)) := by
  simp [searchReviews, h]

theorem searchReviews_ok_inv {env : SearchEnv} {cache c' : SessionCache} {query : String}
    {topK : Nat} {out : List ScoredReview}
    (h : searchReviews env cache query topK = (c', .ok out)) :
    ¬ (normalizeText query).length = 0 ∧
      c' = { cache with lastSentiment := some (querySentimentOf env query) } ∧
      out = searchReviewsCore env (querySentimentOf env query) (normalizeText query) topK := by
  by_cases he : (normalizeText query).length = 0
  · rw [searchReviews_of_empty he] at h
    injection h with h1 h2
    exact absurd h2 (by simp)
  · rw [searchReviews_of_nonempty he] at h
    injection h with h1 h2
    injection h2 with h2
    exact ⟨he, h1.symm, h2.symm⟩

theorem searchReviewsList_of_ok {env : SearchEnv} {cache c' : SessionCache} {query : String}
    {topK : Nat} {out : List ScoredReview}
    (h : searchReviews env cache query topK = (c', .ok out)) :
    searchReviewsList env cache query topK = out := by
  unfold searchReviewsList
  rw [h]

theorem scoreCandidate_fields {env : SearchEnv} {querySent : String} {rc : Review × ℚ}
    {r : ScoredReview} (h : scoreCandidate env querySent rc = some r) :
    r.sentimentWeight = sentimentToWeight r.sentimentLabel ∧
      r.sentimentAlignment = alignSentiment querySent r.sentimentLabel ∧
      r.finalReviewScore = r.similarity * r.sentimentWeight * r.sentimentAlignment := by
  unfold scoreCandidate at h
  cases hp : rc.1.placeId with
  | none => rw [hp] at h; exact absurd h (by simp)
  | some pid =>
    rw [hp] at h
    cases h
    exact ⟨rfl, rfl, rfl⟩

theorem mem_thresholdFilter {querySent : String} {l : List ScoredReview} {r : ScoredReview} :
    r ∈ thresholdFilter querySent l ↔
      r ∈ l ∧ minScoreFor querySent < r.finalReviewScore := by
  simp [thresholdFilter, List.mem_filter]

/-- Every review returned by the core was produced by `scoreCandidate`
and survived the strict threshold filter. -/
theorem mem_searchReviewsCore {env : SearchEnv} {querySent q : String} {topK : Nat}
    {r : ScoredReview} (h : r ∈ searchReviewsCore env querySent q topK) :
    (∃ rc, scoreCandidate env querySent rc = some r) ∧
      minScoreFor querySent < r.finalReviewScore := by
  unfold searchReviewsCore nlargestReviews at h
  have h1 : r ∈ thresholdFilter querySent _ :=
    mem_insSort.1 (List.take_subset _ _ h)
  rcases mem_thresholdFilter.1 h1 with ⟨h2, h3⟩
  rcases List.mem_filterMap.1 h2 with ⟨rc, _, hrc⟩
  exact ⟨⟨rc, hrc⟩, h3⟩

/-- The threshold bound is strictly positive for every query sentiment. -/
theorem minScoreFor_pos (querySent : String) : 0 < minScoreFor querySent := by
  unfold minScoreFor
  split <;> norm_num

theorem mem_groupPlaces {l : List ScoredReview} {p : PlaceScoreRow}
    (h : p ∈ groupPlaces l) :
    p = mkRow p.placeId (l.filter (fun r => decide (r.placeId = p.placeId))) ∧
      l.filter (fun r => decide (r.placeId = p.placeId)) ≠ [] := by
  unfold groupPlaces at h
  rcases List.mem_filterMap.1 h with ⟨pid, _, hf⟩
  by_cases hg : (l.filter (fun r => decide (r.placeId = pid))).isEmpty
  · rw [if_pos hg] at hf
    exact absurd hf (by simp)
  · rw [if_neg hg] at hf
    have hfp := Option.some.inj hf
    have hpid : p.placeId = pid := by rw [← hfp]; rfl
    subst hpid
    exact ⟨hfp.symm, by simpa [List.isEmpty_iff] using hg⟩

theorem strategyScores_ok_inv {aggregation querySent : String} {rows : List PlaceScoreRow}
    {sr : List (PlaceScoreRow × ℝ)}
    (h : strategyScores aggregation querySent rows = .ok sr) :
    (aggregation = "mean" ∧ sr = rows.map (fun p => (p, ((p.avgScore : ℚ) : ℝ)))) ∨
      (aggregation = "max" ∧ sr = rows.map (fun p => (p, ((p.maxScore : ℚ) : ℝ)))) ∨
      (aggregation = "weighted" ∧ sr = rows.map (fun p => (p, weightedScore querySent p))) := by
  unfold strategyScores at h
  split_ifs at h with h1 h2 h3
  · exact Or.inl ⟨h1, (Except.ok.inj h).symm⟩
  · exact Or.inr (Or.inl ⟨h2, (Except.ok.inj h).symm⟩)
  · exact Or.inr (Or.inr ⟨h3, (Except.ok.inj h).symm⟩)

theorem strategyScores_unknown {aggregation querySent : String} {rows : List PlaceScoreRow}
    (h1 : ¬ aggregation = "mean") (h2 : ¬ aggregation = "max")
    (h3 : ¬ aggregation = "weighted") :
    strategyScores aggregation querySent rows =
      .error (.invalidAggregation aggregation) := by
  simp [strategyScores, h1, h2, h3]

theorem mem_dedupNameGo {seen : List (Option String)} {l : List PlaceResult}
    {r : PlaceResult} (h : r ∈ dedupNameGo seen l) : r ∈ l := by
  induction l generalizing seen with
  | nil => simp [dedupNameGo] at h
  | cons x xs ih =>
    simp only [dedupNameGo] at h
    split at h
    · exact List.mem_cons_of_mem x (ih h)
    · rcases List.mem_cons.1 h with rfl | h
      · exact List.mem_cons_self _ _
      · exact List.mem_cons_of_mem x (ih h)

theorem mem_mergePlace {places : List Place} {pr : PlaceScoreRow × ℝ} {res : PlaceResult}
    (h : res ∈ mergePlace places pr) : ∃ pl, res = resultOfRow pl pr.1 pr.2 := by
  unfold mergePlace at h
  split at h
  · rcases List.mem_singleton.1 h with rfl
    exact ⟨none, rfl⟩
  · rcases List.mem_map.1 h with ⟨pl, _, rfl⟩
    exact ⟨some pl, rfl⟩

theorem mem_finalizePlaces {places : List Place} {topK : Nat}
    {scoredRows : List (PlaceScoreRow × ℝ)} {res : PlaceResult}
    (h : res ∈ finalizePlaces places topK scoredRows) :
    ∃ p s pl, (p, s) ∈ scoredRows ∧ res = resultOfRow pl p s := by
  unfold finalizePlaces at h
  have h1 := List.take_subset _ _ h
  have h2 := (List.mem_filter.1 h1).1
  have h3 := mem_dedupNameGo h2
  rcases List.mem_flatMap.1 h3 with ⟨pr, hpr, hres⟩
  have hpr' : pr ∈ scoredRows := mem_insSort.1 (List.take_subset _ _ hpr)
  rcases mem_mergePlace hres with ⟨pl, rfl⟩
  exact ⟨pr.1, pr.2, pl, hpr', rfl⟩

theorem searchPlaces_reviews_error {env : SearchEnv} {cache cache1 : SessionCache}
    {query : String} {k m : Option Nat} {a : Option String} {e : SearchError}
    (hsr : searchReviews env cache query 300 = (cache1, .error e)) :
    searchPlaces env cache query k m a = (cache1, .error e) := by
  unfold searchPlaces
  rw [hsr]

theorem searchPlaces_reviews_ok {env : SearchEnv} {cache cache1 : SessionCache}
    {query : String} {k m : Option Nat} {a : Option String} {relevant : List ScoredReview}
    (hsr : searchReviews env cache query 300 = (cache1, .ok relevant)) :
    searchPlaces env cache query k m a =
      (if relevant.isEmpty then (cache1, .ok [])
       else
         ({ cache1 with lastReviews := some (capReviews relevant) },
          if (placeRows (natOrDefault m 3) (capReviews relevant)).isEmpty then
            .ok []
          else
            match strategyScores (strOrDefault a "weighted")
                (strOrDefault cache1.lastSentiment "neutral")
                (placeRows (natOrDefault m 3) (capReviews relevant)) with
            | .error e => .error e
            | .ok scoredRows =>
              .ok (finalizePlaces env.places (natOrDefault k 10) scoredRows))) := by
  unfold searchPlaces
  rw [hsr]

/-- Inversion of a successful `search_places` call: the query sentiment is
always freshly recorded, while the reviews slot is overwritten exactly
when retrieval produced a nonempty scored set; the output rows come from
`finalizePlaces` over the strategy scores. -/
theorem searchPlaces_ok_inv {env : SearchEnv} {cache c' : SessionCache} {query : String}
    {k m : Option Nat} {a : Option String} {out : List PlaceResult}
    (h : searchPlaces env cache query k m a = (c', .ok out)) :
    c'.lastSentiment = some (querySentimentOf env query) ∧
      ((searchReviewsList env cache query 300 = [] ∧
          c'.lastReviews = cache.lastReviews ∧ out = []) ∨
        (searchReviewsList env cache query 300 ≠ [] ∧
          c'.lastReviews = some (capReviews (searchReviewsList env cache query 300)) ∧
          (out = [] ∨
            ∃ sr,
              strategyScores (strOrDefault a "weighted")
                  (strOrDefault (some (querySentimentOf env query)) "neutral")
                  (placeRows (natOrDefault m 3)
                    (capReviews (searchReviewsList env cache query 300))) = .ok sr ∧
                out = finalizePlaces env.places (natOrDefault k 10) sr))) := by
  cases hsr : searchReviews env cache query 300 with
  | mk cache1 res =>
    cases res with
    | error e =>
      rw [searchPlaces_reviews_error hsr] at h
      injection h with h1 h2
      exact absurd h2 (by simp)
    | ok relevant =>
      obtain ⟨hne, hc1, hcore⟩ := searchReviews_ok_inv hsr
      have hlist : searchReviewsList env cache query 300 = relevant :=
        searchReviewsList_of_ok hsr
      rw [searchPlaces_reviews_ok hsr] at h
      by_cases hemp : relevant.isEmpty
      · rw [if_pos hemp] at h
        injection h with h1 h2
        injection h2 with h2
        refine ⟨by rw [← h1, hc1], Or.inl ⟨?_, ?_, h2.symm⟩⟩
        · rw [hlist]
          exact List.isEmpty_iff.1 hemp
        · rw [← h1, hc1]
      · rw [if_neg hemp] at h
        have hrelne : relevant ≠ [] := by
          intro hcontra
          exact hemp (by simp [hcontra])
        injection h with h1 h2
        have hsentc : c'.lastSentiment = some (querySentimentOf env query) := by
          rw [← h1, hc1]
        have hcc : c'.lastReviews =
            some (capReviews (searchReviewsList env cache query 300)) := by
          rw [← h1, hlist]
        by_cases hrows : (placeRows (natOrDefault m 3) (capReviews relevant)).isEmpty
        · rw [if_pos hrows] at h2
          injection h2 with h2
          exact ⟨hsentc, Or.inr ⟨by rw [hlist]; exact hrelne, hcc, Or.inl h2.symm⟩⟩
        · rw [if_neg hrows] at h2
          cases hss : strategyScores (strOrDefault a "weighted")
              (strOrDefault cache1.lastSentiment "neutral")
              (placeRows (natOrDefault m 3) (capReviews relevant)) with
          | error e =>
            rw [hss] at h2
            exact absurd h2 (by simp)
          | ok sr =>
            rw [hss] at h2
            injection h2 with h2
            have hsent : cache1.lastSentiment = some (querySentimentOf env query) := by
              rw [hc1]
            refine ⟨hsentc, Or.inr ⟨by rw [hlist]; exact hrelne, hcc, ?_⟩⟩
            refine Or.inr ⟨sr, ?_, h2.symm⟩
            rw [hlist, ← hsent]
            exact hss

theorem mem_searchReviewsList {env : SearchEnv} {cache : SessionCache} {query : String}
    {topK : Nat} {r : ScoredReview}
    (h : r ∈ searchReviewsList env cache query topK) :
    (∃ rc, scoreCandidate env (querySentimentOf env query) rc = some r) ∧
      minScoreFor (querySentimentOf env query) < r.finalReviewScore := by
  unfold searchReviewsList at h
  by_cases he : (normalizeText query).length = 0
  · rw [searchReviews_of_empty he] at h
    simp at h
  · rw [searchReviews_of_nonempty he] at h
    simp only at h
    exact mem_searchReviewsCore h

/-- Every review retained by a `search_reviews` call scores strictly
positively. -/
theorem searchReviewsList_pos {env : SearchEnv} {cache : SessionCache} {query : String}
    {topK : Nat} {r : ScoredReview} (h : r ∈ searchReviewsList env cache query topK) :
    0 < r.finalReviewScore :=
  lt_trans (minScoreFor_pos _) (mem_searchReviewsList h).2

theorem maxAux_nonneg {l : List ℚ} (h : ∀ x ∈ l, 0 ≤ x) : 0 ≤ maxAux l := by
  cases l with
  | nil => simp [maxAux]
  | cons a as =>
    have haux : ∀ (xs : List ℚ) (b : ℚ), 0 ≤ b → 0 ≤ xs.foldl max b := by
      intro xs
      induction xs with
      | nil => intro b hb; simpa using hb
      | cons x xs ih =>
        intro b hb
        simp only [List.foldl]
        exact ih _ (le_trans hb (le_max_left b x))
    exact haux as a (h a (List.mem_cons_self _ _))

theorem mkRow_nonneg {pid : Int} {g : List ScoredReview}
    (hpos : ∀ r ∈ g, 0 ≤ r.finalReviewScore) :
    0 ≤ (mkRow pid g).avgScore ∧ 0 ≤ (mkRow pid g).maxScore := by
  constructor
  · apply div_nonneg
    · apply List.sum_nonneg
      intro x hx
      rcases List.mem_map.1 hx with ⟨r, hr, rfl⟩
      exact hpos r hr
    · exact_mod_cast Nat.zero_le _
  · apply maxAux_nonneg
    intro x hx
    rcases List.mem_map.1 hx with ⟨r, hr, rfl⟩
    exact hpos r hr

/-- Nonnegativity of place aggregates built from nonnegative review
scores, transported through the minimum-evidence filter. -/
theorem placeRows_nonneg {minReviews : Nat} {capped : List ScoredReview}
    {p : PlaceScoreRow} (hp : p ∈ placeRows minReviews capped)
    (hpos : ∀ r ∈ capped, 0 ≤ r.finalReviewScore) :
    0 ≤ p.avgScore ∧ 0 ≤ p.maxScore := by
  have hgp : p ∈ groupPlaces capped := (List.mem_filter.1 hp).1
  obtain ⟨hrow, -⟩ := mem_groupPlaces hgp
  rw [hrow]
  apply mkRow_nonneg
  intro r hr
  exact hpos r (List.mem_filter.1 hr).1

/-! Concrete instance used to exercise the pipeline end to end: one cafe
with three neutral reviews, a neutral classifier and a three-vector
index. -/

def demoText1 : String := "great coffee and a very cozy room"

def demoText2 : String := "quiet place and friendly baristas"

def demoText3 : String := "pleasant seating and good music here"

def demoReviews : List Review :=
  [ { placeId := some 5, text := demoText1 },
    { placeId := some 5, text := demoText2 },
    { placeId := some 5, text := demoText3 } ]

def demoPlace : Place :=
  { firmId := 5, name := some "Cafe", address := some "Main street 1",
    category := some "cafe", rating := some 4.5 }

def demoEnv : SearchEnv :=
  { reviews := demoReviews, places := [demoPlace], ntotal := 3,
    retrieve := fun _ _ => [(0, 9/10), (1, 4/5), (2, 7/10)],
    classify := fun _ => ("neutral", 9/10) }

def initCache : SessionCache := { lastReviews := none, lastSentiment := none }

def demoScored (t : String) (sim : ℚ) : ScoredReview :=
  { placeId := 5, text := t, similarity := sim, sentimentLabel := "neutral",
    sentimentScore := 9/10, sentimentWeight := 1, sentimentAlignment := 1,
    finalReviewScore := sim }

def demoRel : List ScoredReview :=
  [demoScored demoText1 (9/10), demoScored demoText2 (4/5), demoScored demoText3 (7/10)]

theorem demo_querySentiment : querySentimentOf demoEnv "hello" = "neutral" := by decide

theorem demo_normalize_ne : ¬ (normalizeText "hello").length = 0 := by decide

theorem strLower_neutral : strLower "neutral" = "neutral" := by decide

theorem s_neu_ne_neg : (("neutral" : String) = "negative") = False := eq_false (by decide)

theorem s_neu_ne_pos : (("neutral" : String) = "positive") = False := eq_false (by decide)

theorem demo_get0 : demoReviews[(0 : Nat)]? = some { placeId := some 5, text := demoText1 } := rfl

theorem demo_get1 : demoReviews[(1 : Nat)]? = some { placeId := some 5, text := demoText2 } := rfl

theorem demo_get2 : demoReviews[(2 : Nat)]? = some { placeId := some 5, text := demoText3 } := rfl

theorem demo_len : demoReviews.length = 3 := rfl

theorem demo_el0 : demoReviews[0] = { placeId := some 5, text := demoText1 } := rfl

theorem demo_el1 : demoReviews[1] = { placeId := some 5, text := demoText2 } := rfl

theorem demo_el2 : demoReviews[2] = { placeId := some 5, text := demoText3 } := rfl

theorem demoRevEval :
    searchReviews demoEnv initCache "hello" 300 =
      ({ initCache with lastSentiment := some "neutral" }, .ok demoRel) := by
  rw [searchReviews_of_nonempty demo_normalize_ne, demo_querySentiment]
  norm_num [searchReviewsCore, demoEnv, nlargestReviews, thresholdFilter,
    insSort, insOne, revDesc, scoreCandidate, sentimentToWeight, alignSentiment,
    minScoreFor, strLower_neutral, s_neu_ne_neg, s_neu_ne_pos,
    demo_get0, demo_get1, demo_get2, demo_len, demo_el0, demo_el1, demo_el2,
    demoScored, demoRel, initCache,
    List.filterMap_cons, List.filterMap_nil, List.filter_cons, List.filter_nil]

/-- Aggregate row of the demo place: average `4/5`, maximum `9/10`,
three neutral reviews. -/
def demoRow : PlaceScoreRow :=
  { placeId := 5, avgScore := 4/5, maxScore := 9/10, reviewCount := 3,
    totalScore := 12/5, posCount := 0, negCount := 0, neuCount := 3 }

noncomputable def demoRes : PlaceResult :=
  resultOfRow (some demoPlace) demoRow (weightedScore "neutral" demoRow)

def demoCacheOut : SessionCache :=
  { lastReviews := some demoRel, lastSentiment := some "neutral" }

theorem demo_sortRel : insSort revDesc demoRel = demoRel := by
  norm_num [insSort, insOne, revDesc, demoRel, demoScored]

theorem demo_cap : capReviews demoRel = demoRel := by
  rw [capReviews, demo_sortRel]
  norm_num [capGo, demoRel, demoScored, List.count_cons, List.count_nil]

theorem s_neu_ne_empty : (("neutral" : String) = "") = False := eq_false (by decide)

theorem s_w_ne_mean : (("weighted" : String) = "mean") = False := eq_false (by decide)

theorem s_w_ne_max : (("weighted" : String) = "max") = False := eq_false (by decide)

theorem s_w_ne_empty : (("weighted" : String) = "") = False := eq_false (by decide)

theorem s_cafe_ne_nan : (("Cafe" : String) = "nan") = False := eq_false (by decide)

theorem demo_group : groupPlaces demoRel = [demoRow] := by
  norm_num [groupPlaces, demoRel, demoScored, insSort, insOne, List.dedup_cons_of_mem,
    mkRow, maxAux, demoRow, List.filter_cons, List.filterMap_cons, s_neu_ne_pos,
    s_neu_ne_neg, List.cons_ne_nil]

theorem demo_placeRows : placeRows 3 demoRel = [demoRow] := by
  rw [placeRows, demo_group]
  norm_num [demoRow]

theorem demo_strategy :
    strategyScores "weighted" "neutral" [demoRow] =
      .ok [(demoRow, weightedScore "neutral" demoRow)] := by
  norm_num [strategyScores, s_w_ne_mean, s_w_ne_max]

theorem demo_finalize :
    finalizePlaces [demoPlace] 10 [(demoRow, weightedScore "neutral" demoRow)] =
      [demoRes] := by
  norm_num [finalizePlaces, insSort, insOne, dedupNameGo, mergePlace, demoPlace,
    demoRes, demoRow, resultOfRow, List.filter_cons, List.flatMap_cons, List.flatMap_nil,
    s_cafe_ne_nan]

theorem demo_relNe : demoRel.isEmpty = false := rfl

theorem demo_rowsNe : ([demoRow] : List PlaceScoreRow).isEmpty = false := rfl

theorem demoPlacesEvalW :
    searchPlaces demoEnv initCache "hello" none none (some "weighted") =
      (demoCacheOut, .ok [demoRes]) := by
  rw [searchPlaces_reviews_ok demoRevEval]
  norm_num [natOrDefault, strOrDefault, demo_cap, demo_placeRows, demo_strategy,
    demo_finalize, demo_relNe, demo_rowsNe, demoCacheOut, demoEnv,
    s_neu_ne_empty, s_w_ne_empty]

/-! Further string facts and a degenerate environment whose index returns
no candidates at all. -/

theorem strLower_positive : strLower "positive" = "positive" := by decide

theorem strLower_negative : strLower "negative" = "negative" := by decide

theorem s_neg_ne_pos : (("negative" : String) = "positive") = False := eq_false (by decide)

theorem s_neg_ne_neu : (("negative" : String) = "neutral") = False := eq_false (by decide)

theorem s_pos_ne_neg : (("positive" : String) = "negative") = False := eq_false (by decide)

def emptyEnv : SearchEnv :=
  { reviews := [], places := [], ntotal := 0,
    retrieve := fun _ _ => [], classify := fun _ => ("neutral", 1) }

theorem emptyRevEval (cache : SessionCache) :
    searchReviews emptyEnv cache "hello" 300 =
      ({ cache with lastSentiment := some "neutral" }, .ok []) := by
  rw [searchReviews_of_nonempty demo_normalize_ne]
  norm_num [querySentimentOf, emptyEnv, strLower_neutral, searchReviewsCore,
    nlargestReviews, thresholdFilter, insSort]

/-- A `(p, s)` pair produced by a successful strategy dispatch has its row
among the dispatched rows. -/
theorem strategyScores_mem_rows {agg querySent : String} {rows : List PlaceScoreRow}
    {sr : List (PlaceScoreRow × ℝ)} {p : PlaceScoreRow} {s : ℝ}
    (hss : strategyScores agg querySent rows = .ok sr) (hmem : (p, s) ∈ sr) :
    p ∈ rows := by
  rcases strategyScores_ok_inv hss with ⟨-, rfl⟩ | ⟨-, rfl⟩ | ⟨-, rfl⟩ <;>
  · rcases List.mem_map.1 hmem with ⟨p', hp', heq⟩
    injection heq with h1 h2
    exact h1 ▸ hp'

/-- Splitting a conditional `filterMap` into a filter and a map. -/
theorem filterMap_ite {α β : Type} (f : α → β) (q : α → Prop) [DecidablePred q]
    (l : List α) :
    l.filterMap (fun a => if q a then some (f a) else none) =
      (l.filter (fun a => decide (q a))).map f := by
  induction l with
  | nil => simp
  | cons a as ih =>
    by_cases h : q a <;> simp [h, ih]

/-! Claim theorems. -/

/-- C1: every scored review that `search_reviews` returns satisfies
`final_review_score = similarity * sentiment_weight(review_label) *
sentiment_alignment(query_sentiment, review_label)`, its stored weight and
alignment columns agree with these functions of its label and of the
query's sentiment, and the weight map and the 3×3 alignment table carry
exactly the claimed values. -/
theorem c1_review_score_formula :
    (∀ (env : SearchEnv) (cache c' : SessionCache) (query : String) (topK : Nat)
        (out : List ScoredReview),
      searchReviews env cache query topK = (c', .ok out) →
      ∀ r ∈ out,
        r.sentimentWeight = sentimentToWeight r.sentimentLabel ∧
          r.sentimentAlignment =
            alignSentiment (querySentimentOf env query) r.sentimentLabel ∧
          r.finalReviewScore = r.similarity * sentimentToWeight r.sentimentLabel *
            alignSentiment (querySentimentOf env query) r.sentimentLabel) ∧
      sentimentToWeight "positive" = 1.2 ∧ sentimentToWeight "neutral" = 1 ∧
      sentimentToWeight "negative" = 0.8 ∧
      alignSentiment "negative" "positive" = 0.05 ∧
      alignSentiment "negative" "neutral" = 0.5 ∧
      alignSentiment "negative" "negative" = 2.5 ∧
      alignSentiment "positive" "positive" = 2 ∧
      alignSentiment "positive" "neutral" = 0.7 ∧
      alignSentiment "positive" "negative" = 0.05 ∧
      alignSentiment "neutral" "positive" = 1 ∧
      alignSentiment "neutral" "neutral" = 1 ∧
      alignSentiment "neutral" "negative" = 1 := by
  refine ⟨?_, ?_, ?_, ?_, ?_, ?_, ?_, ?_, ?_, ?_, ?_, ?_, ?_⟩
  · intro env cache c' query topK out h r hr
    obtain ⟨hne, hc, hcore⟩ := searchReviews_ok_inv h
    rw [hcore] at hr
    obtain ⟨⟨rc, hrc⟩, -⟩ := mem_searchReviewsCore hr
    obtain ⟨hw, ha, hs⟩ := scoreCandidate_fields hrc
    exact ⟨hw, ha, by rw [hs, hw, ha]⟩
  · norm_num [sentimentToWeight, strLower_positive]
  · norm_num [sentimentToWeight, strLower_neutral, s_neu_ne_pos]
  · norm_num [sentimentToWeight, strLower_negative, s_neg_ne_pos, s_neg_ne_neu]
  · norm_num [alignSentiment]
  · norm_num [alignSentiment, s_neu_ne_pos, s_neu_ne_neg]
  · norm_num [alignSentiment, s_neg_ne_pos]
  · norm_num [alignSentiment, s_pos_ne_neg]
  · norm_num [alignSentiment, s_pos_ne_neg, s_neu_ne_neg, s_neu_ne_pos]
  · norm_num [alignSentiment, s_pos_ne_neg]
  · norm_num [alignSentiment, s_neu_ne_neg, s_neu_ne_pos]
  · norm_num [alignSentiment, s_neu_ne_neg, s_neu_ne_pos]
  · norm_num [alignSentiment, s_neu_ne_neg, s_neu_ne_pos]

/-- Witness for C1: the top demo review's stored final score is the
claimed product at a concrete successful call. -/
theorem c1_witness :
    (demoScored demoText1 (9/10)).finalReviewScore =
      (demoScored demoText1 (9/10)).similarity *
        sentimentToWeight (demoScored demoText1 (9/10)).sentimentLabel *
        alignSentiment (querySentimentOf demoEnv "hello")
          (demoScored demoText1 (9/10)).sentimentLabel :=
  (c1_review_score_formula.1 demoEnv initCache
      { initCache with lastSentiment := some "neutral" } "hello" 300 demoRel
      demoRevEval (demoScored demoText1 (9/10)) (by simp [demoRel])).2.2

/-- A scored review sitting exactly at the neutral-query threshold of
0.20: the code's strict filter drops it. -/
def cexThresholdReview : ScoredReview :=
  { placeId := 1, text := "ok", similarity := 1/5, sentimentLabel := "neutral",
    sentimentScore := 1, sentimentWeight := 1, sentimentAlignment := 1,
    finalReviewScore := 1/5 }

/-- Counterexample to C2 as stated: this review's `final_review_score`
equals the 0.20 threshold, so the claim says it is retained ("at or
above"), but the filter (`> min_score`, line 206) drops it. -/
theorem c2_counterexample :
    minScoreFor "neutral" ≤ cexThresholdReview.finalReviewScore ∧
      thresholdFilter "neutral" [cexThresholdReview] = [] := by
  constructor
  · norm_num [minScoreFor, cexThresholdReview, s_neu_ne_neg]
  · norm_num [thresholdFilter, cexThresholdReview, minScoreFor, s_neu_ne_neg,
      List.filter_cons]

/-- C2 (amended): the threshold filter retains exactly the scored reviews
whose `final_review_score` is strictly greater than the minimum score —
0.15 when the query sentiment is negative, 0.20 otherwise — and drops
those at or below it; consequently every review of a successful
`search_reviews` output scores strictly above the threshold. -/
theorem c2_threshold_filter_strict :
    (∀ (querySent : String) (l : List ScoredReview) (r : ScoredReview),
      r ∈ thresholdFilter querySent l ↔
        r ∈ l ∧ minScoreFor querySent < r.finalReviewScore) ∧
      minScoreFor "negative" = 0.15 ∧
      (∀ querySent : String, querySent ≠ "negative" → minScoreFor querySent = 0.20) ∧
      (∀ (env : SearchEnv) (cache c' : SessionCache) (query : String) (topK : Nat)
          (out : List ScoredReview),
        searchReviews env cache query topK = (c', .ok out) →
        ∀ r ∈ out, minScoreFor (querySentimentOf env query) < r.finalReviewScore) := by
  refine ⟨fun querySent l r => mem_thresholdFilter, by norm_num [minScoreFor], ?_, ?_⟩
  · intro querySent h
    simp [minScoreFor, h]
  · intro env cache c' query topK out h r hr
    obtain ⟨hne, hc, hcore⟩ := searchReviews_ok_inv h
    rw [hcore] at hr
    exact (mem_searchReviewsCore hr).2

/-- Witness for C2 (amended): at a concrete successful call every
returned review beats the threshold strictly. -/
theorem c2_witness :
    minScoreFor (querySentimentOf demoEnv "hello") <
      (demoScored demoText1 (9/10)).finalReviewScore :=
  c2_threshold_filter_strict.2.2.2 demoEnv initCache
    { initCache with lastSentiment := some "neutral" } "hello" 300 demoRel
    demoRevEval (demoScored demoText1 (9/10)) (by simp [demoRel])

/-- C3: under the `weighted` strategy, every place row returned by
`search_places` carries `final_score = avg_score * ln(1 + review_count) *
sqrt(sentiment_ratio)` with the ratio `(negative_count + 1) /
(positive_count + neutral_count + 1)` for a negative query sentiment and
`(positive_count + 1) / (negative_count + 1)` otherwise. -/
theorem c3_weighted_final_score :
    ∀ (env : SearchEnv) (cache c' : SessionCache) (query : String)
      (k m : Option Nat) (out : List PlaceResult),
      searchPlaces env cache query k m (some "weighted") = (c', .ok out) →
      ∀ res ∈ out,
        res.finalScore = (res.avgScore : ℝ) * Real.log (1 + (res.reviewCount : ℝ)) *
          Real.sqrt (if strOrDefault c'.lastSentiment "neutral" = "negative"
            then ((res.negCount : ℝ) + 1) / ((res.posCount : ℝ) + (res.neuCount : ℝ) + 1)
            else ((res.posCount : ℝ) + 1) / ((res.negCount : ℝ) + 1)) := by
  intro env cache c' query k m out h res hres
  obtain ⟨hsent, hdisj⟩ := searchPlaces_ok_inv h
  rcases hdisj with ⟨-, -, rfl⟩ | ⟨-, -, hout⟩
  · exact absurd hres (by simp)
  rcases hout with rfl | ⟨sr, hss, rfl⟩
  · exact absurd hres (by simp)
  obtain ⟨p, s, pl, hmem, rfl⟩ := mem_finalizePlaces hres
  have hagg : strOrDefault (some "weighted") "weighted" = "weighted" := by
    norm_num [strOrDefault, s_w_ne_empty]
  rw [hagg] at hss
  rcases strategyScores_ok_inv hss with ⟨hm, -⟩ | ⟨hm, -⟩ | ⟨-, hsr⟩
  · exact absurd hm (by decide)
  · exact absurd hm (by decide)
  subst hsr
  rcases List.mem_map.1 hmem with ⟨p', hp', heq⟩
  injection heq with h1 h2
  subst h1
  subst h2
  rw [hsent]
  by_cases hqs : strOrDefault (some (querySentimentOf env query)) "neutral" = "negative"
  · simp only [resultOfRow, weightedScore, sentimentRatio, hqs, if_true, if_pos]
    push_cast
    ring_nf
  · simp only [resultOfRow, weightedScore, sentimentRatio, hqs, if_false, if_neg,
      not_false_iff]
    push_cast
    ring_nf

/-- Witness for C3: at the concrete weighted demo run the returned row's
final score is the claimed product. -/
theorem c3_witness :
    demoRes.finalScore = (demoRes.avgScore : ℝ) *
      Real.log (1 + (demoRes.reviewCount : ℝ)) *
      Real.sqrt (if strOrDefault demoCacheOut.lastSentiment "neutral" = "negative"
        then ((demoRes.negCount : ℝ) + 1) / ((demoRes.posCount : ℝ) + (demoRes.neuCount : ℝ) + 1)
        else ((demoRes.posCount : ℝ) + 1) / ((demoRes.negCount : ℝ) + 1)) :=
  c3_weighted_final_score demoEnv initCache demoCacheOut "hello" none none [demoRes]
    demoPlacesEvalW demoRes (by simp)

/-- C4: `final_review_score` of every review retained by
`search_reviews` and `final_score` of every place row returned by
`search_places` are nonnegative, for arbitrary similarity inputs (in
particular for any similarity in `[-1, 1]`); the guard is the strictly
positive score threshold, after which every multiplicative weight keeps
the value nonnegative. -/
theorem c4_scores_nonneg :
    (∀ (env : SearchEnv) (cache c' : SessionCache) (query : String) (topK : Nat)
        (out : List ScoredReview),
      searchReviews env cache query topK = (c', .ok out) →
      ∀ r ∈ out, 0 ≤ r.finalReviewScore) ∧
      (∀ (env : SearchEnv) (cache c' : SessionCache) (query : String)
          (k m : Option Nat) (a : Option String) (out : List PlaceResult),
        searchPlaces env cache query k m a = (c', .ok out) →
        ∀ res ∈ out, 0 ≤ res.finalScore) := by
  constructor
  · intro env cache c' query topK out h r hr
    obtain ⟨hne, hc, hcore⟩ := searchReviews_ok_inv h
    rw [hcore] at hr
    exact (lt_trans (minScoreFor_pos _) (mem_searchReviewsCore hr).2).le
  · intro env cache c' query k m a out h res hres
    obtain ⟨hsent, hdisj⟩ := searchPlaces_ok_inv h
    rcases hdisj with ⟨-, -, rfl⟩ | ⟨-, -, hout⟩
    · exact absurd hres (by simp)
    rcases hout with rfl | ⟨sr, hss, rfl⟩
    · exact absurd hres (by simp)
    obtain ⟨p, s, pl, hmem, rfl⟩ := mem_finalizePlaces hres
    have hprow : p ∈ placeRows (natOrDefault m 3)
        (capReviews (searchReviewsList env cache query 300)) :=
      strategyScores_mem_rows hss hmem
    have hpos : ∀ r ∈ capReviews (searchReviewsList env cache query 300),
        0 ≤ r.finalReviewScore := by
      intro r hr
      exact (searchReviewsList_pos (mem_capReviews hr)).le
    obtain ⟨havg, hmax⟩ := placeRows_nonneg hprow hpos
    have hres_eq : (resultOfRow pl p s).finalScore = s := rfl
    rw [hres_eq]
    rcases strategyScores_ok_inv hss with ⟨-, rfl⟩ | ⟨-, rfl⟩ | ⟨-, rfl⟩ <;>
      rcases List.mem_map.1 hmem with ⟨p', hp', heq⟩ <;>
      injection heq with h1 h2 <;> subst h1 <;> subst h2
    · exact_mod_cast havg
    · exact_mod_cast hmax
    · apply mul_nonneg (mul_nonneg _ _) (Real.sqrt_nonneg _)
      · exact_mod_cast havg
      · exact Real.log_nonneg (le_add_of_nonneg_right (by positivity))

/-- Witness for C4: concrete nonnegativity at the demo run. -/
theorem c4_witness :
    0 ≤ (demoScored demoText1 (9/10)).finalReviewScore ∧ 0 ≤ demoRes.finalScore :=
  ⟨c4_scores_nonneg.1 demoEnv initCache
      { initCache with lastSentiment := some "neutral" } "hello" 300 demoRel
      demoRevEval (demoScored demoText1 (9/10)) (by simp [demoRel]),
   c4_scores_nonneg.2 demoEnv initCache demoCacheOut "hello" none none
      (some "weighted") [demoRes] demoPlacesEvalW demoRes (by simp)⟩

/-- Counterexample to C5 as stated: with an index that returns no
candidates, `search_places` called with the unknown aggregation name
`"median"` does not raise `InvalidAggregation` — it returns a normal
empty result, because the empty-pool early return of lines 232-234 fires
before the strategy name is ever examined (lines 276-303). -/
theorem c5_counterexample :
    searchPlaces emptyEnv initCache "hello" none none (some "median") =
      ({ initCache with lastSentiment := some "neutral" }, .ok []) := by
  rw [searchPlaces_reviews_ok (emptyRevEval initCache)]
  simp

/-- C5 (amended): when the scored-review pool is nonempty and at least
one place survives the minimum-evidence filter, `search_places` raises
`InvalidAggregation` for every nonempty unknown strategy name — after the
session-cache writes but before any final place score is computed; when
retrieval returns nothing, or when every place fails the
minimum-evidence filter, the call instead returns a normal empty result
without ever validating the strategy name; and a `None` or empty
aggregation value silently falls back to the default `weighted` instead
of being rejected. -/
theorem c5_unknown_aggregation :
    (∀ (env : SearchEnv) (cache : SessionCache) (query : String)
        (k m : Option Nat) (agg : String),
      agg ≠ "mean" → agg ≠ "max" → agg ≠ "weighted" → agg ≠ "" →
      searchReviewsList env cache query 300 ≠ [] →
      placeRows (natOrDefault m 3) (capReviews (searchReviewsList env cache query 300)) ≠ [] →
      searchPlaces env cache query k m (some agg) =
        ({ cache with
            lastSentiment := some (querySentimentOf env query)
            lastReviews := some (capReviews (searchReviewsList env cache query 300)) },
         .error (.invalidAggregation agg))) ∧
      (∀ (env : SearchEnv) (cache cache1 : SessionCache) (query : String)
          (k m : Option Nat) (a : Option String),
        searchReviews env cache query 300 = (cache1, .ok []) →
        searchPlaces env cache query k m a = (cache1, .ok [])) ∧
      (∀ (env : SearchEnv) (cache : SessionCache) (query : String)
          (k m : Option Nat) (a : Option String),
        searchReviewsList env cache query 300 ≠ [] →
        placeRows (natOrDefault m 3)
            (capReviews (searchReviewsList env cache query 300)) = [] →
        (searchPlaces env cache query k m a).2 = .ok []) ∧
      (∀ (env : SearchEnv) (cache : SessionCache) (query : String) (k m : Option Nat),
        searchPlaces env cache query k m (some "") =
          searchPlaces env cache query k m (some "weighted")) ∧
      (∀ (env : SearchEnv) (cache : SessionCache) (query : String) (k m : Option Nat),
        searchPlaces env cache query k m none =
          searchPlaces env cache query k m (some "weighted")) := by
  refine ⟨?_, ?_, ?_, ?_, ?_⟩
  · intro env cache query k m agg h1 h2 h3 h4 hrel hrows
    cases hsr : searchReviews env cache query 300 with
    | mk cache1 res =>
      cases res with
      | error e =>
        rw [searchReviewsList, hsr] at hrel
        exact absurd rfl hrel
      | ok rel =>
        have hlist := searchReviewsList_of_ok hsr
        obtain ⟨hne, hc1, hcore⟩ := searchReviews_ok_inv hsr
        rw [hlist] at hrel hrows
        rw [searchPlaces_reviews_ok hsr]
        rw [if_neg (by simpa [List.isEmpty_iff] using hrel)]
        rw [if_neg (by simpa [List.isEmpty_iff] using hrows)]
        have hagg : strOrDefault (some agg) "weighted" = agg := by
          simp [strOrDefault, h4]
        rw [hagg, strategyScores_unknown h1 h2 h3, hc1, hlist]
  · intro env cache cache1 query k m a h
    rw [searchPlaces_reviews_ok h]
    simp
  · intro env cache query k m a hrel hrows
    cases hsr : searchReviews env cache query 300 with
    | mk cache1 res =>
      cases res with
      | error e =>
        rw [searchReviewsList, hsr] at hrel
        exact absurd rfl hrel
      | ok rel =>
        have hlist := searchReviewsList_of_ok hsr
        rw [hlist] at hrel hrows
        rw [searchPlaces_reviews_ok hsr]
        rw [if_neg (by simpa [List.isEmpty_iff] using hrel)]
        rw [if_pos (by simp [List.isEmpty_iff, hrows])]
  · intro env cache query k m
    rfl
  · intro env cache query k m
    rfl

/-- Witness for C5 (amended): on the populated demo instance the unknown
name `"median"` is rejected with `InvalidAggregation`, with the cache
already carrying the capped reviews and the query sentiment. -/
theorem c5_witness :
    searchPlaces demoEnv initCache "hello" none none (some "median") =
      ({ initCache with
          lastSentiment := some (querySentimentOf demoEnv "hello")
          lastReviews := some (capReviews (searchReviewsList demoEnv initCache "hello" 300)) },
       .error (.invalidAggregation "median")) :=
  c5_unknown_aggregation.1 demoEnv initCache "hello" none none "median"
    (by decide) (by decide) (by decide) (by decide)
    (by rw [searchReviewsList_of_ok demoRevEval]; simp [demoRel])
    (by
      rw [searchReviewsList_of_ok demoRevEval]
      norm_num [natOrDefault, demo_cap, demo_placeRows])

/-- C6: under every successful `search_places` call, the capped
scored-review set that feeds aggregation holds at most 15 reviews per
place — per place exactly the first 15 rows of the descending sort, hence
the highest scoring ones — and every returned row's `review_count` is the
number of capped reviews of that place, not the raw retrieval count. -/
theorem c6_per_place_cap :
    ∀ (env : SearchEnv) (cache c' : SessionCache) (query : String)
      (k m : Option Nat) (a : Option String) (out : List PlaceResult),
      searchPlaces env cache query k m a = (c', .ok out) →
      (∀ pid, ((capReviews (searchReviewsList env cache query 300)).filter
          (fun r => decide (r.placeId = pid))).length ≤ 15) ∧
        (∀ pid, (capReviews (searchReviewsList env cache query 300)).filter
            (fun r => decide (r.placeId = pid)) =
          ((insSort revDesc (searchReviewsList env cache query 300)).filter
            (fun r => decide (r.placeId = pid))).take 15) ∧
        (∀ res ∈ out, res.reviewCount =
          ((capReviews (searchReviewsList env cache query 300)).filter
            (fun r => decide (r.placeId = res.placeId))).length) := by
  intro env cache c' query k m a out h
  refine ⟨fun pid => capReviews_filter_length _ pid,
    fun pid => capReviews_filter _ pid, ?_⟩
  intro res hres
  obtain ⟨hsent, hdisj⟩ := searchPlaces_ok_inv h
  rcases hdisj with ⟨-, -, rfl⟩ | ⟨-, -, hout⟩
  · exact absurd hres (by simp)
  rcases hout with rfl | ⟨sr, hss, rfl⟩
  · exact absurd hres (by simp)
  obtain ⟨p, s, pl, hmem, rfl⟩ := mem_finalizePlaces hres
  have hprow : p ∈ placeRows (natOrDefault m 3)
      (capReviews (searchReviewsList env cache query 300)) :=
    strategyScores_mem_rows hss hmem
  have hgp : p ∈ groupPlaces (capReviews (searchReviewsList env cache query 300)) :=
    (List.mem_filter.1 hprow).1
  obtain ⟨hrow, -⟩ := mem_groupPlaces hgp
  have hplace : (resultOfRow pl p s).placeId = p.placeId := rfl
  have hcount : (resultOfRow pl p s).reviewCount = p.reviewCount := rfl
  rw [hplace, hcount, hrow]
  rfl

/-- Witness for C6: at the demo run the returned row counts exactly its
(three) capped reviews. -/
theorem c6_witness :
    demoRes.reviewCount =
      ((capReviews (searchReviewsList demoEnv initCache "hello" 300)).filter
        (fun r => decide (r.placeId = demoRes.placeId))).length ∧
      demoRes.reviewCount = 3 :=
  ⟨(c6_per_place_cap demoEnv initCache demoCacheOut "hello" none none
      (some "weighted") [demoRes] demoPlacesEvalW).2.2 demoRes (by simp),
   rfl⟩

/-- C7: a query whose normalized text is empty makes `search_reviews`
(and hence `search_places`) fail with `InvalidQuery` and leave the
session cache untouched, and this holds for every environment — in
particular for every `retrieve` and `classify` function, which is the
pure rendering of "no call is made against the index (or the
classifier)": the outcome cannot depend on them.  Conversely a
successful call certifies a nonempty normalized query, so the index is
only searched for nonempty normalized text. -/
theorem c7_empty_query :
    (∀ (env : SearchEnv) (cache : SessionCache) (query : String) (topK : Nat),
      normalizeText query = "" →
      searchReviews env cache query topK = (cache, .error .invalidQuery)) ∧
      (∀ (env : SearchEnv) (cache : SessionCache) (query : String)
          (k m : Option Nat) (a : Option String),
        normalizeText query = "" →
        searchPlaces env cache query k m a = (cache, .error .invalidQuery)) ∧
      (∀ (env : SearchEnv) (cache c' : SessionCache) (query : String) (topK : Nat)
          (out : List ScoredReview),
        searchReviews env cache query topK = (c', .ok out) →
        normalizeText query ≠ "") := by
  have hbase : ∀ (env : SearchEnv) (cache : SessionCache) (query : String) (topK : Nat),
      normalizeText query = "" →
      searchReviews env cache query topK = (cache, .error .invalidQuery) := by
    intro env cache query topK h
    exact searchReviews_of_empty (by rw [h]; rfl)
  refine ⟨hbase, ?_, ?_⟩
  · intro env cache query k m a h
    exact searchPlaces_reviews_error (hbase env cache query 300 h)
  · intro env cache c' query topK out h hcontra
    obtain ⟨hne, -, -⟩ := searchReviews_ok_inv h
    exact hne (by rw [hcontra]; rfl)

/-- Witness for C7: a whitespace-only query fails fast on a concrete
environment, leaving the cache as it was. -/
theorem c7_witness :
    searchReviews demoEnv initCache "   " 200 = (initCache, .error .invalidQuery) :=
  c7_empty_query.1 demoEnv initCache "   " 200 (by decide)

/-- The session cache left over from an earlier query. -/
def staleCache : SessionCache :=
  { lastReviews := some [demoScored demoText1 (9/10)],
    lastSentiment := some "positive" }

/-- Counterexample to C8 as stated: a `search_places` call whose
retrieval finds nothing terminates normally yet leaves the previous
query's scored reviews in the cache — the cache is not overwritten at the
start of every call, and this call updates the reviews slot zero times. -/
theorem c8_counterexample :
    searchPlaces emptyEnv staleCache "hello" none none none =
      ({ staleCache with lastSentiment := some "neutral" }, .ok []) ∧
      ({ staleCache with lastSentiment := some "neutral" } : SessionCache).lastReviews =
        some [demoScored demoText1 (9/10)] := by
  constructor
  · rw [searchPlaces_reviews_ok (emptyRevEval staleCache)]
    simp
  · rfl

theorem strLength_zero {s : String} (h : s.length = 0) : s = "" := by
  obtain ⟨data⟩ := s
  cases data with
  | nil => rfl
  | cons c cs => simp [String.length] at h

/-- C8 (amended): a `search_places` call that fails the empty-query check
leaves the session cache completely untouched; every other call —
including calls that go on to raise `InvalidAggregation`, since both
cache writes precede the raise — freshly overwrites the query-sentiment
slot, and overwrites the scored-reviews slot exactly once, with the full
per-place-capped scored-review set, precisely when retrieval produced a
nonempty scored set; a call whose retrieval comes back empty returns an
empty result while leaving the reviews slot holding its previous
content.  (Both cache reads are pure functions in this embedding, so the
cache is read-only between calls by construction.) -/
theorem c8_cache_update :
    ∀ (env : SearchEnv) (cache : SessionCache) (query : String)
      (k m : Option Nat) (a : Option String),
      (normalizeText query = "" →
        searchPlaces env cache query k m a = (cache, .error .invalidQuery)) ∧
        (normalizeText query ≠ "" →
          (searchPlaces env cache query k m a).1.lastSentiment =
            some (querySentimentOf env query) ∧
          (searchReviewsList env cache query 300 = [] →
            (searchPlaces env cache query k m a).1.lastReviews = cache.lastReviews ∧
            (searchPlaces env cache query k m a).2 = .ok []) ∧
          (searchReviewsList env cache query 300 ≠ [] →
            (searchPlaces env cache query k m a).1.lastReviews =
              some (capReviews (searchReviewsList env cache query 300)))) := by
  intro env cache query k m a
  refine ⟨?_, ?_⟩
  · intro hq
    exact searchPlaces_reviews_error (searchReviews_of_empty (by rw [hq]; rfl))
  · intro hq
    have hne : ¬ (normalizeText query).length = 0 := fun hlen => hq (strLength_zero hlen)
    have hsr := @searchReviews_of_nonempty env cache query 300 hne
    have hlist0 : searchReviewsList env cache query 300 =
        searchReviewsCore env (querySentimentOf env query) (normalizeText query) 300 := by
      unfold searchReviewsList
      rw [hsr]
    rw [searchPlaces_reviews_ok hsr]
    by_cases hemp :
        (searchReviewsCore env (querySentimentOf env query) (normalizeText query) 300).isEmpty
    · rw [if_pos hemp]
      exact ⟨rfl, fun _ => ⟨rfl, rfl⟩, fun hcon =>
        absurd (by rw [hlist0]; exact List.isEmpty_iff.1 hemp) hcon⟩
    · rw [if_neg hemp]
      refine ⟨rfl, ?_, ?_⟩
      · intro hnil
        rw [hlist0] at hnil
        exact absurd (by simp [hnil]) hemp
      · intro hne2
        rw [hlist0]

/-- Witness for C8 (amended): the demo run stores the capped set and the
fresh query sentiment. -/
theorem c8_witness :
    (searchPlaces demoEnv initCache "hello" none none (some "weighted")).1.lastSentiment =
      some (querySentimentOf demoEnv "hello") ∧
      (searchPlaces demoEnv initCache "hello" none none (some "weighted")).1.lastReviews =
        some (capReviews (searchReviewsList demoEnv initCache "hello" 300)) :=
  ⟨((c8_cache_update demoEnv initCache "hello" none none (some "weighted")).2
      (by decide)).1,
   ((c8_cache_update demoEnv initCache "hello" none none (some "weighted")).2
      (by decide)).2.2
      (by rw [searchReviewsList_of_ok demoRevEval]; simp [demoRel])⟩

/-- A cached review of place 7 whose raw text has only 3 characters. -/
def shortReview : ScoredReview :=
  { placeId := 7, text := "bad", similarity := 1, sentimentLabel := "negative",
    sentimentScore := 1, sentimentWeight := 0.8, sentimentAlignment := 2.5,
    finalReviewScore := 2 }

def shortCache : SessionCache :=
  { lastReviews := some [shortReview], lastSentiment := some "negative" }

theorem short_text_cut : ((20 : Nat) < (strTrim "bad").length) = False :=
  eq_false (by decide)

/-- Counterexample to C9 as stated: place 7 is present in the cache with
a cached scored review, so the claim demands its text among the returned
highlights, but `get_place_highlights` returns the empty list — the
formatting loop of lines 368-374 silently drops every text of at most 20
stripped characters. -/
theorem c9_counterexample :
    getPlaceHighlights shortCache 7 3 = [] ∧
      shortCache.lastReviews = some [shortReview] ∧
      shortReview.placeId = 7 ∧ (strTrim shortReview.text).length = 3 := by
  refine ⟨?_, rfl, rfl, by decide⟩
  norm_num [getPlaceHighlights, shortCache, shortReview, nlargestReviews, insSort,
    insOne, List.filter_cons, List.filterMap_cons, short_text_cut]

/-- C9 (amended): `get_place_highlights` returns the empty list when the
cache is unset or holds no review of the place; otherwise it returns, in
descending `final_review_score` order and capped at `top_k`, one
annotated normalized text per review among the `top_k`
highest-`final_review_score` cached reviews of the place whose raw text
exceeds 20 characters after stripping — reviews with shorter texts are
skipped (and not replaced), so fewer than `top_k` highlights can be
returned even when the place has at least `top_k` cached reviews. -/
theorem c9_highlights :
    (∀ (cache : SessionCache) (pid : Int) (topK : Nat),
      cache.lastReviews = none → getPlaceHighlights cache pid topK = []) ∧
      (∀ (cache : SessionCache) (rs : List ScoredReview) (pid : Int) (topK : Nat),
        cache.lastReviews = some rs →
        rs.filter (fun r => decide (r.placeId = pid)) = [] →
        getPlaceHighlights cache pid topK = []) ∧
      (∀ (cache : SessionCache) (rs : List ScoredReview) (pid : Int) (topK : Nat),
        cache.lastReviews = some rs →
        getPlaceHighlights cache pid topK =
          ((nlargestReviews topK (rs.filter (fun r' => decide (r'.placeId = pid)))).filter
            (fun r => decide (20 < (strTrim r.text).length))).map
            (fun r => sentIndicator r.sentimentLabel ++ " " ++ normalizeText r.text) ∧
        ((nlargestReviews topK (rs.filter (fun r' => decide (r'.placeId = pid)))).filter
            (fun r => decide (20 < (strTrim r.text).length))).Pairwise
            (fun a b => b.finalReviewScore ≤ a.finalReviewScore) ∧
        ((nlargestReviews topK (rs.filter (fun r' => decide (r'.placeId = pid)))).filter
            (fun r => decide (20 < (strTrim r.text).length))).length ≤ topK ∧
        (∀ r ∈ (nlargestReviews topK
            (rs.filter (fun r' => decide (r'.placeId = pid)))).filter
            (fun r => decide (20 < (strTrim r.text).length)),
          r ∈ rs ∧ r.placeId = pid ∧ 20 < (strTrim r.text).length ∧
            r ∈ nlargestReviews topK (rs.filter (fun r' => decide (r'.placeId = pid)))) ∧
        (∀ r ∈ nlargestReviews topK (rs.filter (fun r' => decide (r'.placeId = pid))),
          20 < (strTrim r.text).length →
          (sentIndicator r.sentimentLabel ++ " " ++ normalizeText r.text) ∈
            getPlaceHighlights cache pid topK)) := by
  refine ⟨?_, ?_, ?_⟩
  · intro cache pid topK h
    simp [getPlaceHighlights, h]
  · intro cache rs pid topK hc hfil
    by_cases hrs : rs.isEmpty <;> simp [getPlaceHighlights, hc, hrs, hfil]
  · intro cache rs pid topK hc
    have heq : getPlaceHighlights cache pid topK =
        ((nlargestReviews topK (rs.filter (fun r' => decide (r'.placeId = pid)))).filter
          (fun r => decide (20 < (strTrim r.text).length))).map
          (fun r => sentIndicator r.sentimentLabel ++ " " ++ normalizeText r.text) := by
      by_cases hrs : rs.isEmpty
      · have hnil : rs = [] := List.isEmpty_iff.1 hrs
        subst hnil
        simp [getPlaceHighlights, hc, nlargestReviews, insSort]
      · by_cases hfil : (rs.filter (fun r' => decide (r'.placeId = pid))).isEmpty
        · have hf : rs.filter (fun r' => decide (r'.placeId = pid)) = [] :=
            List.isEmpty_iff.1 hfil
          simp [getPlaceHighlights, hc, hrs, hf, nlargestReviews, insSort]
        · have hmain : getPlaceHighlights cache pid topK =
              (nlargestReviews topK
                (rs.filter (fun r' => decide (r'.placeId = pid)))).filterMap
                (fun r =>
                  if 20 < (strTrim r.text).length then
                    some (sentIndicator r.sentimentLabel ++ " " ++ normalizeText r.text)
                  else none) := by
            simp only [getPlaceHighlights, hc]
            rw [if_neg (by simpa using hrs), if_neg (by simpa using hfil)]
          rw [hmain]
          exact filterMap_ite
            (fun r : ScoredReview =>
              sentIndicator r.sentimentLabel ++ " " ++ normalizeText r.text)
            (fun r : ScoredReview => 20 < (strTrim r.text).length) _
    refine ⟨heq, ?_, ?_, ?_, ?_⟩
    · refine List.Pairwise.sublist ?_ (insSort_revDesc_sorted
        (rs.filter (fun r' => decide (r'.placeId = pid))))
      exact (List.filter_sublist _).trans (List.take_sublist _ _)
    · refine le_trans (List.length_filter_le _ _) ?_
      rw [nlargestReviews, List.length_take]
      exact Nat.min_le_left _ _
    · intro r hr
      obtain ⟨htop, hcond⟩ := List.mem_filter.1 hr
      have h2 : r ∈ rs.filter (fun r' => decide (r'.placeId = pid)) := by
        have := List.take_subset _ _ (by simpa [nlargestReviews] using htop)
        exact mem_insSort.1 this
      obtain ⟨hmem, hpid⟩ := List.mem_filter.1 h2
      exact ⟨hmem, by simpa using hpid, by simpa using hcond, htop⟩
    · intro r hr hlong
      rw [heq]
      exact List.mem_map.2 ⟨r, List.mem_filter.2 ⟨hr, by simpa using hlong⟩, rfl⟩

theorem demo_long1 : ((20 : Nat) < (strTrim demoText1).length) = True := eq_true (by decide)

theorem demo_long2 : ((20 : Nat) < (strTrim demoText2).length) = True := eq_true (by decide)

theorem demo_long3 : ((20 : Nat) < (strTrim demoText3).length) = True := eq_true (by decide)

theorem demo_fmt1 : sentIndicator "neutral" ++ " " ++ normalizeText demoText1 =
    "[~] great coffee and a very cozy room" := by decide

theorem demo_fmt2 : sentIndicator "neutral" ++ " " ++ normalizeText demoText2 =
    "[~] quiet place and friendly baristas" := by decide

theorem demo_fmt3 : sentIndicator "neutral" ++ " " ++ normalizeText demoText3 =
    "[~] pleasant seating and good music here" := by decide

/-- Witness for C9 (amended): the demo cache yields highlights of the
demo place with all the listed properties, and concretely the three
annotated texts in score order. -/
theorem c9_witness :
    (getPlaceHighlights demoCacheOut 5 3 =
      ((nlargestReviews 3 (demoRel.filter (fun r' => decide (r'.placeId = 5)))).filter
        (fun r => decide (20 < (strTrim r.text).length))).map
        (fun r => sentIndicator r.sentimentLabel ++ " " ++ normalizeText r.text) ∧
      ((nlargestReviews 3 (demoRel.filter (fun r' => decide (r'.placeId = 5)))).filter
        (fun r => decide (20 < (strTrim r.text).length))).Pairwise
        (fun a b => b.finalReviewScore ≤ a.finalReviewScore) ∧
      ((nlargestReviews 3 (demoRel.filter (fun r' => decide (r'.placeId = 5)))).filter
        (fun r => decide (20 < (strTrim r.text).length))).length ≤ 3 ∧
      (∀ r ∈ (nlargestReviews 3
          (demoRel.filter (fun r' => decide (r'.placeId = 5)))).filter
          (fun r => decide (20 < (strTrim r.text).length)),
        r ∈ demoRel ∧ r.placeId = 5 ∧ 20 < (strTrim r.text).length ∧
          r ∈ nlargestReviews 3 (demoRel.filter (fun r' => decide (r'.placeId = 5)))) ∧
      (∀ r ∈ nlargestReviews 3 (demoRel.filter (fun r' => decide (r'.placeId = 5))),
        20 < (strTrim r.text).length →
        (sentIndicator r.sentimentLabel ++ " " ++ normalizeText r.text) ∈
          getPlaceHighlights demoCacheOut 5 3)) ∧
      getPlaceHighlights demoCacheOut 5 3 =
        ["[~] great coffee and a very cozy room",
         "[~] quiet place and friendly baristas",
         "[~] pleasant seating and good music here"] :=
  ⟨c9_highlights.2.2 demoCacheOut demoRel 5 3 rfl, by
    norm_num [getPlaceHighlights, demoCacheOut, demoRel, demoScored, nlargestReviews,
      insSort, insOne, revDesc, List.filter_cons, List.filterMap_cons,
      demo_long1, demo_long2, demo_long3, demo_fmt1, demo_fmt2, demo_fmt3]⟩

/-- C10: the falsy Python `or` defaults of `search_places`: a `top_k` of
0 (or `None`) behaves exactly as `top_k = 10`, a `min_reviews` of 0 (or
`None`) behaves exactly as `min_reviews = 3`, and an empty (or `None`)
aggregation behaves exactly as `"weighted"`; in particular the concrete
call with `top_k = 0`, `min_reviews = 0` and empty aggregation returns
one place rather than zero. -/
theorem c10_falsy_defaults :
    (∀ (env : SearchEnv) (cache : SessionCache) (query : String)
        (m : Option Nat) (a : Option String),
      searchPlaces env cache query (some 0) m a =
        searchPlaces env cache query (some 10) m a) ∧
      (∀ (env : SearchEnv) (cache : SessionCache) (query : String)
          (k : Option Nat) (a : Option String),
        searchPlaces env cache query k (some 0) a =
          searchPlaces env cache query k (some 3) a) ∧
      (∀ (env : SearchEnv) (cache : SessionCache) (query : String)
          (k m : Option Nat),
        searchPlaces env cache query k m (some "") =
          searchPlaces env cache query k m (some "weighted")) ∧
      searchPlaces demoEnv initCache "hello" (some 0) (some 0) (some "") =
        (demoCacheOut, .ok [demoRes]) ∧
      ([demoRes] : List PlaceResult).length = 1 := by
  refine ⟨fun env cache query m a => rfl, fun env cache query k a => rfl,
    fun env cache query k m => rfl, ?_, rfl⟩
  exact demoPlacesEvalW

end Step2
